import Mathlib

/-!
# The work-queue worker: connection and command loop

A shallow embedding of `main` in `dttools/src/worker.c` (the loop of lines
115-201) together with the theorems that settle the specification's claims
about it.

The loop body is embedded statement by statement.  The helpers it calls live
in files that are not part of the sources at hand (`link.c`, `fast_popen.c`,
`copy_stream.c`) or in the C library and the kernel (`sscanf`, `open`,
`fstat`, `time`); they are modelled on an explicit `World`, each under a
comment that says where the model comes from.
-/

namespace Worker

/-- A byte string: the contents of a C buffer, a line, a file. -/
abbrev Bytes := List Char

/-! ## C library: strings, `sscanf`, `sprintf` -/

/-- The NUL byte that ends a C string. -/
def NUL : Char := Char.ofNat 0

/-- The newline byte. -/
def NL : Char := Char.ofNat 10

/-- The C string held in a buffer: the bytes before the first NUL. -/
def cstr (buf : Bytes) : Bytes := buf.takeWhile (fun c => c != NUL)

/-- The predicate `isspace` of the C locale: space, TAB, LF, VT, FF, CR. -/
def isspace (c : Char) : Bool :=
  c == ' ' || c == Char.ofNat 9 || c == Char.ofNat 10 || c == Char.ofNat 11
    || c == Char.ofNat 12 || c == Char.ofNat 13

/-- Skipping of white space, as done by a white-space directive and before a conversion. -/
def skipSpace (s : Bytes) : Bytes := s.dropWhile isspace

/-- Value of a digit in a base of at most ten, `none` for any other byte. -/
def digitVal (base : Nat) (c : Char) : Option Nat :=
  if 48 ≤ c.toNat ∧ c.toNat < 48 + base then some (c.toNat - 48) else none

/-- Consumes the longest run of digits, accumulating its value. -/
def scanDigits (base : Nat) : Nat → Bytes → Nat × Bytes
  | acc, [] => (acc, [])
  | acc, c :: cs =>
    match digitVal base c with
    | some d => scanDigits base (acc * base + d) cs
    | none => (acc, c :: cs)

/-- The subject sequence of `%d` (base 10) and `%o` (base 8): an optional sign and at
least one digit.  `none` is a matching failure.  The value is the mathematical one; a
value that does not fit the `int` it is stored in is outside the C standard. -/
def scanNumber (base : Nat) (s : Bytes) : Option (Int × Bytes) :=
  let neg : Bool := s.head? == some '-'
  let body : Bytes := if s.head? == some '-' || s.head? == some '+' then s.tail else s
  match body with
  | [] => none
  | c :: _ =>
    if (digitVal base c).isSome then
      let r := scanDigits base 0 body
      some (if neg then - (r.1 : Int) else (r.1 : Int), r.2)
    else none

/-- The conversions used by the worker's formats. -/
inductive Conv where
  | d
  | s
  | o
deriving DecidableEq, Repr

/-- One directive of a `scanf` format. -/
inductive Directive where
  | lit (c : Char)
  | white
  | conv (k : Conv)
deriving DecidableEq, Repr

/-- A value stored through one of the pointer arguments of `sscanf`. -/
inductive Val where
  | int (v : Int)
  | text (s : Bytes)
deriving DecidableEq, Repr

/-- Splits a format string into directives; the flag says that the previous byte was `%`. -/
def parseFormat : Bool → List Char → List Directive
  | _, [] => []
  | true, k :: r =>
    Directive.conv (if k = 'd' then Conv.d else if k = 's' then Conv.s else Conv.o)
      :: parseFormat false r
  | false, c :: r =>
    if c = '%' then parseFormat true r
    else if isspace c then Directive.white :: parseFormat false r
    else Directive.lit c :: parseFormat false r

/-- Return value of `sscanf` when the input ends: `EOF` (-1) when no conversion has been
stored yet, the number of stored conversions otherwise. -/
def inputFailure (out : List Val) : Int :=
  if out.isEmpty then -1 else (out.length : Int)

/-- The matching loop of `sscanf`: the return value and the values stored so far, in
order of the pointer arguments. -/
def scan : List Directive → Bytes → List Val → Int × List Val
  | [], _, out => ((out.length : Int), out)
  | Directive.lit c :: ds, inp, out =>
    match inp with
    | [] => (inputFailure out, out)
    | x :: rest => if x = c then scan ds rest out else ((out.length : Int), out)
  | Directive.white :: ds, inp, out => scan ds (skipSpace inp) out
  | Directive.conv k :: ds, inp, out =>
    match skipSpace inp with
    | [] => (inputFailure out, out)
    | x :: rest =>
      match k with
      | Conv.s =>
        scan ds ((x :: rest).dropWhile (fun c => !isspace c))
          (out ++ [Val.text ((x :: rest).takeWhile (fun c => !isspace c))])
      | Conv.d =>
        match scanNumber 10 (x :: rest) with
        | none => ((out.length : Int), out)
        | some r => scan ds r.2 (out ++ [Val.int r.1])
      | Conv.o =>
        match scanNumber 8 (x :: rest) with
        | none => ((out.length : Int), out)
        | some r => scan ds r.2 (out ++ [Val.int r.1])

/-- The call `sscanf(s, fmt, ...)`. -/
def sscanf (s : Bytes) (fmt : String) : Int × List Val :=
  scan (parseFormat false fmt.toList) s []

/-- The `int` behind the `i`-th pointer argument after the call: the stored value, or the
old content when the conversion was not reached. -/
def storedInt (vals : List Val) (i : Nat) (old : Int) : Int :=
  match vals.get? i with
  | some (Val.int v) => v
  | _ => old

/-- The `char` buffer behind the `i`-th pointer argument after the call. -/
def storedText (vals : List Val) (i : Nat) (old : Bytes) : Bytes :=
  match vals.get? i with
  | some (Val.text s) => s
  | _ => old

/-- Output of `%llu`, and of `%d` for a value that is not negative. -/
def fmtNat (n : Nat) : Bytes := Nat.toDigits 10 n

/-- Output of `%d`. -/
def fmtInt (v : Int) : Bytes :=
  if v < 0 then '-' :: Nat.toDigits 10 v.natAbs else Nat.toDigits 10 v.toNat

/-- The cast `(int)` of a wider integer, on a machine with 32-bit `int`. -/
def toInt32 (v : Int) : Int := (v + 2147483648) % 4294967296 - 2147483648

/-! ## The world outside the worker -/

/-- A file: the permission bits given when it was created, and its contents. -/
structure File where
  mode : Int
  data : Bytes
deriving DecidableEq, Repr

/-- The file system as seen through path names. -/
abbrev Files := Bytes → Option File

/-- The file system with one entry replaced. -/
def Files.store (fs : Files) (name : Bytes) (f : File) : Files :=
  fun p => if p = name then some f else fs p

/-- What running one command yields: the captured output (`none` when
`copy_stream_to_buffer` fails), the status `fast_pclose` returns, and the file system
the command leaves behind. -/
structure Proc where
  capture : Option Bytes
  status : Int
  files : Files

/-- Modelled from the spec: `struct link` of `link.c`, which is absent.  The connection
to the master: the bytes that still arrive from the master before it falls silent or
closes, the number of bytes the link still accepts towards the master before a write
fails, and the bytes delivered to the master so far. -/
structure Link where
  inbound : Bytes
  room : Nat
  outbound : Bytes
deriving DecidableEq, Repr

/-- Everything the worker reaches through a call: the readings of `time(0)` (the
`ticks`-th call returns `clock ticks`), the file system and the two decisions `open`
takes on it, the outcome of running a command, the outcome of the coming
`link_connect` calls, and the bytes found in freshly allocated memory. -/
structure World where
  clock : Nat → Int
  ticks : Nat
  files : Files
  creatable : Bytes → Bool
  readable : Bytes → Int → Bool
  shell : Bytes → Files → Option Proc
  dial : List (Option Link)
  heap : Nat → Char

/-- The value the coming call `time(0)` returns. -/
def now (w : World) : Int := w.clock w.ticks

/-- The world after one call of `time(0)`. -/
def tick (w : World) : World := { w with ticks := w.ticks + 1 }

/-- Modelled from the spec: `link_connect` of the absent `link.c`
(`connect(address, port, deadline) -> Connection | TimeoutError | ConnectError`).  The
next entry of `dial` decides; no entry left means that nobody answers. -/
def link_connect (w : World) : Option Link × World :=
  match w.dial with
  | [] => (none, w)
  | r :: rest => (r, { w with dial := rest })

/-- Modelled from the spec: `link_write` of the absent `link.c`
(`write_bytes(conn, buffer, length, deadline) -> ok | IOError`).  The bytes go out
whole when the link has room for them; otherwise the call fails after the bytes that
still fit. -/
def link_write (l : Link) (data : Bytes) : Bool × Link :=
  if data.length ≤ l.room then
    (true, { l with room := l.room - data.length, outbound := l.outbound ++ data })
  else
    (false, { l with room := 0, outbound := l.outbound ++ data.take l.room })

/-- Modelled from the spec: `link_readline` of the absent `link.c`
(`read_line(conn, max_len, deadline) -> line | EOF | TimeoutError`).  The line is the
text before the first newline; the call fails when no newline arrives or when the
line does not fit the buffer of `max_len` bytes. -/
def link_readline (l : Link) (max_len : Nat) : Option Bytes × Link :=
  match l.inbound.dropWhile (fun c => c != NL) with
  | [] => (none, { l with inbound := [] })
  | _ :: rest =>
    if (l.inbound.takeWhile (fun c => c != NL)).length < max_len then
      (some (l.inbound.takeWhile (fun c => c != NL)), { l with inbound := rest })
    else (none, { l with inbound := rest })

/-- Modelled from the spec: `link_read` of the absent `link.c`: the bytes obtained, at
most `n`; fewer when the master sends no more. -/
def link_read (l : Link) (n : Nat) : Bytes × Link :=
  (l.inbound.take n, { l with inbound := l.inbound.drop n })

/-- The call `open(name, O_WRONLY|O_CREAT|O_TRUNC, mode)`: on success the file is empty;
a file that existed keeps its permission bits, a new one gets `mode`. -/
def open_create (w : World) (name : Bytes) (mode : Int) : Bool × World :=
  if w.creatable name then
    (true, { w with
      files := Files.store w.files name (File.mk (((w.files name).map File.mode).getD mode) []) })
  else (false, w)

/-- The call `open(name, O_RDONLY, 0)`: the file behind the descriptor, `none` when the
call fails. -/
def open_read (w : World) (name : Bytes) : Option File :=
  match w.files name with
  | none => none
  | some f => if w.readable name f.mode then some f else none

/-- Modelled from the spec: `link_stream_to_fd` of the absent `link.c`
(`stream_to_file(conn, fd, length, deadline) -> bytes_transferred`): moves up to
`length` bytes from the link to the end of the open file and returns how many it
moved. -/
def link_stream_to_fd (l : Link) (w : World) (name : Bytes) (length : Int) :
    Int × Link × World :=
  let got := l.inbound.take length.toNat
  ((got.length : Int), { l with inbound := l.inbound.drop length.toNat },
    { w with files := match w.files name with
        | some f => Files.store w.files name (File.mk f.mode (f.data ++ got))
        | none => w.files })

/-- Modelled from the spec: `link_stream_from_fd` of the absent `link.c`
(`stream_from_file(conn, fd, length, deadline) -> bytes_transferred`): sends up to
`length` bytes from the start of the open file and returns how many the link took. -/
def link_stream_from_fd (l : Link) (f : File) (length : Int) : Int × Link :=
  let r := link_write l (f.data.take length.toNat)
  (((r.2.outbound.length - l.outbound.length : Nat) : Int), r.2)

/-! ## The worker -/

/-- What the worker knows before the loop starts: the host name, the resources probed
at start-up, the per-operation `timeout`, the idle limit given with `-t`, and
`line_max`, the constant `WORK_QUEUE_LINE_MAX` of the absent `work_queue.h`. -/
structure Config where
  hostname : Bytes
  ncpus : Int
  memory_avail : Nat
  memory_total : Nat
  disk_avail : Nat
  disk_total : Nat
  timeout : Int
  idle_abort_timeout : Int
  line_max : Nat

/-- The variables that live across loop iterations.  `length` is declared inside the loop
body and is not initialised there: the branch for `get` reads it without storing to it
first.  The model keeps it in the state, so that an iteration finds the value a previous
iteration left in that storage; the value at the first iteration is arbitrary. -/
structure State where
  master : Option Link
  idle_abort_time : Int
  length : Int

/-- One call that leaves the process, with the arguments that matter and the result. -/
inductive Event where
  | connect (ok : Bool)
  | sleep (secs : Nat)
  | tune
  | write (data : Bytes) (ok : Bool)
  | readline (line : Option Bytes)
  | read (n : Nat) (got : Bytes)
  | popen (cmd : Bytes) (ok : Bool)
  | pclose (status : Int)
  | openCreate (name : Bytes) (mode : Int) (ok : Bool)
  | openRead (name : Bytes) (ok : Bool)
  | streamToFd (name : Bytes) (length : Int) (actual : Int)
  | streamFromFd (name : Bytes) (length : Int) (actual : Int)
  | closeFd
  | linkClose
  | exit (code : Int)
deriving DecidableEq, Repr

/-- How one loop iteration ends: `idle` is the `break` of line 124, `connectFailed` the
`continue` of line 130, `completed` the assignment of line 191, `recovered` the block
of lines 194-197, `exited` the call `exit(0)`, and `fault` an access outside the
allocated buffer, after which C defines nothing. -/
inductive Ending where
  | idle
  | connectFailed
  | completed
  | recovered
  | exited
  | fault
deriving DecidableEq, Repr

/-- One loop iteration seen from outside. -/
structure Result where
  ending : Ending
  state : State
  world : World
  events : List Event

/-- The text built by the `sprintf` of line 135. -/
def readyLine (cfg : Config) : Bytes :=
  "ready ".toList ++ cfg.hostname ++ [' '] ++ fmtInt cfg.ncpus ++ [' ']
    ++ fmtNat cfg.memory_avail ++ [' '] ++ fmtNat cfg.memory_total ++ [' ']
    ++ fmtNat cfg.disk_avail ++ [' '] ++ fmtNat cfg.disk_total ++ [NL]

/-- The text built by the `sprintf` of line 156. -/
def resultLine (result length : Int) : Bytes :=
  "result ".toList ++ fmtInt result ++ [' '] ++ fmtInt length ++ [NL]

/-- Lines 194-197, the target of `goto recover` and the branch of a failed
`link_readline`. -/
def recover (st : State) (w : World) (evs : List Event) : Result :=
  { ending := Ending.recovered, state := { st with master := none }, world := w,
    events := evs ++ [Event.linkClose, Event.sleep 5] }

/-- Line 191, reached by every branch that does not jump to `recover`. -/
def finish (cfg : Config) (st : State) (l : Link) (w : World) (evs : List Event) : Result :=
  { ending := Ending.completed,
    state := { st with master := some l, idle_abort_time := now w + cfg.idle_abort_timeout },
    world := tick w, events := evs }

/-- Modelled from the spec: `fast_popen`, `copy_stream_to_buffer` and `fast_pclose` of
the absent `fast_popen.c` and `copy_stream.c` (`execute(command_text) -> (exit_status,
output_bytes)`).  The value `copy_stream_to_buffer` returns: the number of bytes
captured, or -1 when capturing fails. -/
def copiedLength (p : Proc) : Int :=
  match p.capture with
  | some out => (out.length : Int)
  | none => -1

/-- Lines 141-160, the branch taken when `sscanf(line,"work %d",&length)` is not zero.
The buffer of `length+1` bytes holds the bytes `link_read` obtained, then whatever the
allocation contained, then the NUL stored at index `length`; a negative `length` puts
that store outside the buffer. -/
def doWork (cfg : Config) (st : State) (l : Link) (w : World) (evs : List Event) : Result :=
  if st.length < 0 then
    { ending := Ending.fault, state := { st with master := some l }, world := w, events := evs }
  else
    let n := st.length.toNat
    let rd := link_read l n
    let buffer := rd.1 ++ (List.range' rd.1.length (n - rd.1.length)).map w.heap
    let cmd := cstr buffer
    match w.shell cmd w.files with
    | some p =>
      let length : Int := if copiedLength p < 0 then 0 else copiedLength p
      let payload := (p.capture.getD []).take length.toNat
      let wr1 := link_write rd.2 (resultLine p.status length)
      let wr2 := link_write wr1.2 payload
      finish cfg { st with length := length } wr2.2
        (tick (tick (tick { w with files := p.files })))
        (evs ++ [Event.read n rd.1, Event.popen cmd true, Event.pclose p.status,
          Event.write (resultLine p.status length) wr1.1, Event.write payload wr2.1])
    | none =>
      let wr1 := link_write rd.2 (resultLine (-1) 0)
      let wr2 := link_write wr1.2 []
      finish cfg { st with length := 0 } wr2.2 (tick (tick (tick w)))
        (evs ++ [Event.read n rd.1, Event.popen cmd false,
          Event.write (resultLine (-1) 0) wr1.1, Event.write [] wr2.1])

/-- Lines 162-169, the branch taken when `sscanf(line,"put %s %d %o",...)` is 3. -/
def doPut (cfg : Config) (st : State) (l : Link) (w : World) (filename : Bytes) (mode : Int)
    (evs : List Event) : Result :=
  if '/' ∈ filename then recover st w evs
  else
    let op := open_create w filename mode
    if op.1 = false then recover st op.2 (evs ++ [Event.openCreate filename mode false])
    else
      let r := link_stream_to_fd l (tick op.2) filename st.length
      if r.1 ≠ st.length then
        recover st r.2.2 (evs ++ [Event.openCreate filename mode true,
          Event.streamToFd filename st.length r.1, Event.closeFd])
      else
        finish cfg st r.2.1 r.2.2 (evs ++ [Event.openCreate filename mode true,
          Event.streamToFd filename st.length r.1, Event.closeFd])

/-- Lines 172-184, the branch taken when `sscanf(line,"get %s",filename)` is 1.  The size
line carries `(int)info.st_size`; the byte count handed to `link_stream_from_fd` is the
variable `length`, to which this branch does not assign. -/
def doGet (cfg : Config) (st : State) (l : Link) (w : World) (filename : Bytes)
    (evs : List Event) : Result :=
  match open_read w filename with
  | some f =>
    let line := fmtInt (toInt32 (f.data.length : Int)) ++ [NL]
    let wr := link_write l line
    let r := link_stream_from_fd wr.2 f st.length
    if r.1 ≠ st.length then
      recover st (tick (tick w)) (evs ++ [Event.openRead filename true, Event.write line wr.1,
        Event.streamFromFd filename st.length r.1, Event.closeFd])
    else
      finish cfg st r.2 (tick (tick w)) (evs ++ [Event.openRead filename true,
        Event.write line wr.1, Event.streamFromFd filename st.length r.1, Event.closeFd])
  | none =>
    let wr := link_write l "-1\n".toList
    finish cfg st wr.2 (tick w)
      (evs ++ [Event.openRead filename false, Event.write "-1\n".toList wr.1])

/-- Lines 139-191: the chain of `sscanf` and `strcmp` tests on the request line and the
branch each selects.  Every `sscanf` stores what it converts before it returns, also
when its return value then fails the test. -/
def dispatch (cfg : Config) (st : State) (l : Link) (w : World) (line : Bytes)
    (evs : List Event) : Result :=
  let s := cstr line
  let r1 := sscanf s "work %d"
  let st1 : State := { st with length := storedInt r1.2 0 st.length }
  if r1.1 ≠ 0 then doWork cfg st1 l w evs
  else
    let r2 := sscanf s "put %s %d %o"
    let st2 : State := { st1 with length := storedInt r2.2 1 st1.length }
    if r2.1 = 3 then doPut cfg st2 l w (storedText r2.2 0 []) (storedInt r2.2 2 0) evs
    else
      let r3 := sscanf s "get %s"
      if r3.1 = 1 then doGet cfg st2 l w (storedText r3.2 0 []) evs
      else if s = "exit".toList then
        { ending := Ending.exited, state := { st2 with master := some l }, world := w,
          events := evs ++ [Event.exit 0] }
      else
        let wr := link_write l "error\n".toList
        finish cfg st2 wr.2 (tick w) (evs ++ [Event.write "error\n".toList wr.1])

/-- Lines 134-198: what an iteration does once it holds a connection `l`. -/
def serve (cfg : Config) (st : State) (l : Link) (w : World) : Result :=
  let wr := link_write l (readyLine cfg)
  let rl := link_readline wr.2 cfg.line_max
  match rl.1 with
  | some line =>
    dispatch cfg st rl.2 (tick (tick w)) line
      [Event.tune, Event.write (readyLine cfg) wr.1, Event.readline (some line)]
  | none =>
    recover st (tick (tick w))
      [Event.tune, Event.write (readyLine cfg) wr.1, Event.readline none]

/-- Lines 124-198: one iteration of the loop `while(1)`. -/
def step (cfg : Config) (st : State) (w : World) : Result :=
  if now w > st.idle_abort_time then
    { ending := Ending.idle, state := st, world := tick w, events := [] }
  else
    match st.master with
    | some l => serve cfg st l (tick w)
    | none =>
      let c := link_connect (tick (tick w))
      match c.1 with
      | none =>
        { ending := Ending.connectFailed, state := st, world := c.2,
          events := [Event.connect false, Event.sleep 5] }
      | some l =>
        let r := serve cfg st l c.2
        { r with events := Event.connect true :: r.events }

/-- Line 115 and the initialisation of `master`: the state in which the loop starts.
`junk` is the arbitrary first content of the storage of `length`. -/
def boot (cfg : Config) (w : World) (junk : Int) : State × World :=
  ({ master := none, idle_abort_time := now w + cfg.idle_abort_timeout, length := junk },
    tick w)

/-- A run of the loop: the exit code of the process when it ended, the last state and
world, and all the events. -/
structure Run where
  code : Option Int
  state : State
  world : World
  events : List Event

/-- The loop `while(1)` of lines 117-199 with the `return 0` of line 201 and the
`exit(0)` of line 186, cut after `fuel` iterations. -/
def loop : Nat → Config → State → World → Run
  | 0, _, st, w => { code := none, state := st, world := w, events := [] }
  | fuel + 1, cfg, st, w =>
    let r := step cfg st w
    match r.ending with
    | Ending.idle => { code := some 0, state := r.state, world := r.world, events := r.events }
    | Ending.exited => { code := some 0, state := r.state, world := r.world, events := r.events }
    | Ending.fault => { code := none, state := r.state, world := r.world, events := r.events }
    | _ =>
      let t := loop fuel cfg r.state r.world
      { t with events := r.events ++ t.events }

/-- The part of `main` from line 115 on: the deadline is set, then the loop runs. -/
def main (fuel : Nat) (cfg : Config) (w : World) (junk : Int) : Run :=
  loop fuel cfg (boot cfg w junk).1 (boot cfg w junk).2


/-! ## Request lines -/

/-- A file name as `%s` reads it: not empty, free of white space and of NUL. -/
def IsName (f : Bytes) : Prop := f ≠ [] ∧ ∀ c ∈ f, isspace c = false ∧ c ≠ NUL

/-- A numeral in the given base: a run of at least one digit. -/
def IsNumeral (base : Nat) (ds : Bytes) : Prop :=
  ds ≠ [] ∧ ∀ c ∈ ds, (digitVal base c).isSome = true

/-- The number a numeral denotes. -/
def numVal (base : Nat) (ds : Bytes) : Nat :=
  ds.foldl (fun a c => a * base + (c.toNat - 48)) 0

/-- The request line `put <f> <n> <mode>`. -/
def putLine (f ds ms : Bytes) : Bytes := "put ".toList ++ f ++ [' '] ++ ds ++ [' '] ++ ms

/-- A configuration whose readiness line is `ready h 2 1 2 3 4`. -/
def demoConfig : Config :=
  { hostname := "h".toList, ncpus := 2, memory_avail := 1, memory_total := 2, disk_avail := 3,
    disk_total := 4, timeout := 3600, idle_abort_timeout := 3600, line_max := 1024 }

/-- A file system with `f` in the working directory and a file two directories up. -/
def demoFiles : Files := fun path =>
  if path = "f".toList then some ⟨420, "hello".toList⟩
  else if path = "../../etc/passwd".toList then some ⟨420, "root".toList⟩
  else none

/-- A world whose clock counts its readings, on which every `open` succeeds, and whose
shell runs `echo -n ok` and nothing else. -/
def demoWorld : World :=
  { clock := fun k => (k : Int), ticks := 0, files := demoFiles, creatable := fun _ => true,
    readable := fun _ _ => true,
    shell := fun cmd fs => if cmd = "echo -n ok".toList then some ⟨some "ok".toList, 0, fs⟩ else none,
    dial := [], heap := fun _ => 'z' }

/-- A link on which the master sends `text` and accepts `room` bytes. -/
def demoLink (text : String) (room : Nat) : Link :=
  { inbound := text.toList, room := room, outbound := [] }

/-- A state that holds `demoLink text room`, with the deadline far away and the given
content of `length`. -/
def demoState (text : String) (room : Nat) (length : Int) : State :=
  { master := some (demoLink text room), idle_abort_time := 1000, length := length }

theorem digit_not_space {base : Nat} {c : Char}
    (h : (digitVal base c).isSome = true) : isspace c = false ∧ c ≠ NUL ∧ c ≠ '-' ∧ c ≠ '+' := by
  unfold digitVal at h
  split at h
  · rename_i hc
    refine ⟨?_, ?_, ?_, ?_⟩
    · simp only [isspace, Bool.or_eq_false_iff, beq_eq_false_iff_ne, ne_eq]
      refine ⟨⟨⟨⟨⟨?_, ?_⟩, ?_⟩, ?_⟩, ?_⟩, ?_⟩ <;> (intro he; subst he; exact absurd hc.1 (by decide))
    all_goals (intro he; subst he; exact absurd hc.1 (by decide))
  · simp at h

theorem scanDigits_append (base : Nat) (ds X : Bytes)
    (hds : ∀ c ∈ ds, (digitVal base c).isSome = true)
    (hX : ∀ c, X.head? = some c → digitVal base c = none) (acc : Nat) :
    scanDigits base acc (ds ++ X)
      = (ds.foldl (fun a c => a * base + (c.toNat - 48)) acc, X) := by
  induction ds generalizing acc with
  | nil =>
    cases X with
    | nil => rfl
    | cons x t => simp [scanDigits, hX x rfl]
  | cons d t ih =>
    have hd := hds d (List.mem_cons_self _ _)
    have hv : digitVal base d = some (d.toNat - 48) := by
      unfold digitVal at hd ⊢
      split <;> simp_all
    simp only [List.cons_append, scanDigits, hv, List.foldl_cons]
    exact ih (fun c hc => hds c (List.mem_cons_of_mem _ hc)) _


theorem scanNumber_numeral (base : Nat) (ds X : Bytes) (hds : IsNumeral base ds)
    (hX : ∀ c, X.head? = some c → digitVal base c = none) :
    scanNumber base (ds ++ X) = some ((numVal base ds : Int), X) := by
  obtain ⟨hne, hall⟩ := hds
  cases ds with
  | nil => exact absurd rfl hne
  | cons d t =>
    have hd := hall d (List.mem_cons_self _ _)
    obtain ⟨-, -, hm, hp⟩ := digit_not_space hd
    have hs := scanDigits_append base (d :: t) X hall hX 0
    simp only [List.cons_append] at hs
    simp [scanNumber, hm, hp, hd, hs, numVal]

theorem skipSpace_cons {c : Char} (t : Bytes) (h : isspace c = false) :
    skipSpace (c :: t) = c :: t := by
  simp [skipSpace, List.dropWhile, h]

theorem skipSpace_blank (t : Bytes) : skipSpace (' ' :: t) = skipSpace t := by
  simp [skipSpace, List.dropWhile, isspace]

theorem span_name (f X : Bytes) (hf : ∀ c ∈ f, isspace c = false)
    (hX : ∀ c, X.head? = some c → isspace c = true) :
    (f ++ X).takeWhile (fun c => !isspace c) = f
      ∧ (f ++ X).dropWhile (fun c => !isspace c) = X := by
  induction f with
  | nil =>
    cases X with
    | nil => simp
    | cons x t => simp [List.takeWhile, List.dropWhile, hX x rfl]
  | cons c t ih =>
    have hc := hf c (List.mem_cons_self _ _)
    have := ih (fun c hc => hf c (List.mem_cons_of_mem _ hc))
    simp [List.takeWhile, List.dropWhile, hc, this]

theorem format_work : parseFormat false "work %d".toList
    = [Directive.lit 'w', Directive.lit 'o', Directive.lit 'r', Directive.lit 'k',
        Directive.white, Directive.conv Conv.d] := by decide

theorem format_put : parseFormat false "put %s %d %o".toList
    = [Directive.lit 'p', Directive.lit 'u', Directive.lit 't', Directive.white,
        Directive.conv Conv.s, Directive.white, Directive.conv Conv.d, Directive.white,
        Directive.conv Conv.o] := by decide

/-- A line that starts with another byte than the format's first literal matches nothing. -/
theorem scan_lit_mismatch (c x : Char) (ds : List Directive) (t : Bytes) (h : x ≠ c) :
    scan (Directive.lit c :: ds) (x :: t) [] = (0, []) := by
  simp [scan, h]

theorem sscanf_put_putLine (f ds ms : Bytes) (hf : IsName f) (hds : IsNumeral 10 ds)
    (hms : IsNumeral 8 ms) :
    sscanf (putLine f ds ms) "put %s %d %o"
      = (3, [Val.text f, Val.int (numVal 10 ds), Val.int (numVal 8 ms)]) := by
  obtain ⟨hfne, hfall⟩ := hf
  cases f with
  | nil => exact absurd rfl hfne
  | cons c t =>
    have hc := (hfall c (List.mem_cons_self _ _)).1
    have hsp := span_name (c :: t) (' ' :: (ds ++ ' ' :: ms)) (fun c hc => (hfall c hc).1)
      (by intro x hx; simp at hx; subst hx; decide)
    have hn := scanNumber_numeral 10 ds (' ' :: ms) hds (by intro x hx; simp at hx; subst hx; decide)
    have hm := scanNumber_numeral 8 ms [] hms (by intro x hx; simp at hx)
    obtain ⟨hdne, hdall⟩ := hds
    obtain ⟨hmne, hmall⟩ := hms
    cases ds with
    | nil => exact absurd rfl hdne
    | cons d dt =>
      cases ms with
      | nil => exact absurd rfl hmne
      | cons m mt =>
        have hd := (digit_not_space (hdall d (List.mem_cons_self _ _))).1
        have hmm := (digit_not_space (hmall m (List.mem_cons_self _ _))).1
        simp only [List.cons_append, List.append_nil] at hsp hn hm
        simp [sscanf, format_put, putLine, scan, skipSpace_blank, skipSpace_cons, hc, hd, hmm,
          hsp.1, hsp.2, hn, hm]


theorem sscanf_work_putLine (f ds ms : Bytes) :
    sscanf (putLine f ds ms) "work %d" = (0, []) := by
  simp [sscanf, format_work, putLine, scan]

theorem cstr_self (s : Bytes) (h : ∀ c ∈ s, c ≠ NUL) : cstr s = s := by
  unfold cstr
  rw [List.takeWhile_eq_self_iff]
  intro c hc
  simpa using h c hc

theorem name_clean {f : Bytes} (hf : IsName f) : ∀ c ∈ f, c ≠ NUL ∧ c ≠ NL := by
  intro c hc
  refine ⟨(hf.2 c hc).2, ?_⟩
  intro he
  have := (hf.2 c hc).1
  rw [he] at this
  revert this
  decide

theorem numeral_clean {base : Nat} {ds : Bytes} (hds : IsNumeral base ds) :
    ∀ c ∈ ds, c ≠ NUL ∧ c ≠ NL := by
  intro c hc
  have h := digit_not_space (hds.2 c hc)
  refine ⟨h.2.1, ?_⟩
  intro he
  have := h.1
  rw [he] at this
  revert this
  decide

theorem putLine_clean (f ds ms : Bytes) (hf : IsName f) (hds : IsNumeral 10 ds)
    (hms : IsNumeral 8 ms) : ∀ c ∈ putLine f ds ms, c ≠ NUL ∧ c ≠ NL := by
  intro c hc
  simp only [putLine, List.mem_append, List.mem_singleton] at hc
  rcases hc with (((((hc | hc) | hc) | hc) | hc) | hc)
  · revert c; decide
  · exact name_clean hf c hc
  · subst hc; decide
  · exact numeral_clean hds c hc
  · subst hc; decide
  · exact numeral_clean hms c hc

theorem span_until (p : Char → Bool) (a X : Bytes) (ha : ∀ c ∈ a, p c = true)
    (hX : ∀ c, X.head? = some c → p c = false) :
    (a ++ X).takeWhile p = a ∧ (a ++ X).dropWhile p = X := by
  induction a with
  | nil =>
    cases X with
    | nil => simp
    | cons x t => simp [List.takeWhile_cons, List.dropWhile_cons, hX x rfl]
  | cons c t ih =>
    have hc := ha c (List.mem_cons_self _ _)
    have := ih (fun c hc => ha c (List.mem_cons_of_mem _ hc))
    simp [List.takeWhile_cons, List.dropWhile_cons, hc, this]

/-- A request that arrives whole and fits the buffer is what `link_readline` returns. -/
theorem link_readline_line (l : Link) (line rest : Bytes) (max_len : Nat)
    (hline : ∀ c ∈ line, c ≠ NL) (hfit : line.length < max_len)
    (hin : l.inbound = line ++ NL :: rest) :
    link_readline l max_len = (some line, { l with inbound := rest }) := by
  have h := span_until (fun c => c != NL) line (NL :: rest)
    (by intro c hc; simpa using hline c hc) (by intro c hc; simp at hc; subst hc; simp)
  simp [link_readline, hin, h.1, h.2, hfit]


/-- The link after the readiness line was written and a request line was taken. -/
theorem link_write_inbound (l : Link) (data : Bytes) : (link_write l data).2.inbound = l.inbound := by
  unfold link_write
  split <;> rfl

/-- Routing of `put <f> <n> <mode>`: the iteration runs the `put` branch with the three
converted values. -/
theorem serve_putLine (cfg : Config) (st : State) (l : Link) (w : World)
    (f ds ms rest : Bytes) (hf : IsName f) (hds : IsNumeral 10 ds) (hms : IsNumeral 8 ms)
    (hfit : (putLine f ds ms).length < cfg.line_max)
    (hin : l.inbound = putLine f ds ms ++ NL :: rest) :
    serve cfg st l w
      = doPut cfg { st with length := (numVal 10 ds : Int) }
          { (link_write l (readyLine cfg)).2 with inbound := rest } (tick (tick w)) f
          (numVal 8 ms : Int)
          [Event.tune, Event.write (readyLine cfg) (link_write l (readyLine cfg)).1,
            Event.readline (some (putLine f ds ms))] := by
  have hclean := putLine_clean f ds ms hf hds hms
  have hrl := link_readline_line (link_write l (readyLine cfg)).2 (putLine f ds ms) rest
    cfg.line_max (fun c hc => (hclean c hc).2) hfit
    (by rw [link_write_inbound]; exact hin)
  have hc := cstr_self (putLine f ds ms) (fun c hc => (hclean c hc).1)
  simp [serve, hrl, dispatch, hc, sscanf_work_putLine, sscanf_put_putLine f ds ms hf hds hms,
    storedInt, storedText]

/-- C1. A request `put <f> <n> <mode>` whose file name contains `/` is rejected: the
iteration makes no `open` call, reads no payload, writes nothing after the readiness
line, leaves the world as it was apart from two clock readings, and ends in recovery
with the link closed and `master` set to none. -/
theorem put_with_separator_is_rejected (cfg : Config) (st : State) (l : Link) (w : World)
    (f ds ms rest : Bytes) (hf : IsName f) (hsep : '/' ∈ f) (hds : IsNumeral 10 ds)
    (hms : IsNumeral 8 ms) (hfit : (putLine f ds ms).length < cfg.line_max)
    (hin : l.inbound = putLine f ds ms ++ NL :: rest) :
    (serve cfg st l w).ending = Ending.recovered
      ∧ (serve cfg st l w).state.master = none
      ∧ (serve cfg st l w).world = tick (tick w)
      ∧ (serve cfg st l w).events
          = [Event.tune, Event.write (readyLine cfg) (link_write l (readyLine cfg)).1,
              Event.readline (some (putLine f ds ms)), Event.linkClose, Event.sleep 5] := by
  have hclean := putLine_clean f ds ms hf hds hms
  have hrl := link_readline_line (link_write l (readyLine cfg)).2 (putLine f ds ms) rest
    cfg.line_max (fun c hc => (hclean c hc).2) hfit
    (by unfold link_write; split <;> simpa using hin)
  have hc := cstr_self (putLine f ds ms) (fun c hc => (hclean c hc).1)
  simp [serve, hrl, dispatch, hc, sscanf_work_putLine, sscanf_put_putLine f ds ms hf hds hms,
    storedInt, storedText, doPut, hsep, recover]

/-- C5. A request `put <f> <n> <mode>` whose name has no `/` and whose file can be
opened: the worker opens f with `O_WRONLY|O_CREAT|O_TRUNC` and the mode read in base
eight, asks for exactly n bytes from the link into the file, and the file then holds
the bytes that arrived.  When all n bytes arrive the iteration completes, the link is
kept and nothing was written to it after the readiness line; when fewer arrive the
iteration ends in recovery, and the file with the bytes that did arrive stays. -/
theorem put_stores_payload (cfg : Config) (st : State) (l : Link) (w : World)
    (f ds ms rest : Bytes) (hf : IsName f) (hsep : '/' ∉ f) (hds : IsNumeral 10 ds)
    (hms : IsNumeral 8 ms) (_hint : numVal 10 ds < 2147483648)
    (_hmode : numVal 8 ms < 2147483648) (hfit : (putLine f ds ms).length < cfg.line_max)
    (hopen : w.creatable f = true) (hin : l.inbound = putLine f ds ms ++ NL :: rest) :
    (serve cfg st l w).events
        = [Event.tune, Event.write (readyLine cfg) (link_write l (readyLine cfg)).1,
            Event.readline (some (putLine f ds ms)),
            Event.openCreate f (numVal 8 ms : Int) true,
            Event.streamToFd f (numVal 10 ds : Int) ((rest.take (numVal 10 ds)).length : Int),
            Event.closeFd]
          ++ (if numVal 10 ds ≤ rest.length then [] else [Event.linkClose, Event.sleep 5])
      ∧ (serve cfg st l w).world.files f
          = some ⟨((w.files f).map File.mode).getD (numVal 8 ms : Int), rest.take (numVal 10 ds)⟩
      ∧ (numVal 10 ds ≤ rest.length →
          (serve cfg st l w).ending = Ending.completed
            ∧ (serve cfg st l w).state.master
                = some { (link_write l (readyLine cfg)).2 with inbound := rest.drop (numVal 10 ds) })
      ∧ (rest.length < numVal 10 ds →
          (serve cfg st l w).ending = Ending.recovered
            ∧ (serve cfg st l w).state.master = none) := by
  rw [serve_putLine cfg st l w f ds ms rest hf hds hms hfit hin]
  have hop : (tick (tick w)).creatable f = true := hopen
  by_cases hlen : numVal 10 ds ≤ rest.length
  · have h1 : min (numVal 10 ds) rest.length = numVal 10 ds := Nat.min_eq_left hlen
    simp [doPut, hsep, open_create, hop, hopen, link_stream_to_fd, Files.store, tick, finish, recover,
      h1, hlen]
  · have hlt : rest.length < numVal 10 ds := Nat.lt_of_not_le hlen
    have h1 : min (numVal 10 ds) rest.length = rest.length := Nat.min_eq_right (Nat.le_of_lt hlt)
    have h2 : ¬ ((rest.length : Int) = (numVal 10 ds : Int)) := by omega
    simp [doPut, hsep, open_create, hop, hopen, link_stream_to_fd, Files.store, tick, finish, recover,
      h1, hlen, hlt, h2, List.take_of_length_le (Nat.le_of_lt hlt)]

theorem put_with_separator_is_rejected_witness :
    (serve demoConfig (demoState "put ../../etc/passwd 4 0644\nroot" 100 0)
        (demoLink "put ../../etc/passwd 4 0644\nroot" 100) demoWorld).events
      = [Event.tune, Event.write "ready h 2 1 2 3 4\n".toList true,
          Event.readline (some "put ../../etc/passwd 4 0644".toList), Event.linkClose,
          Event.sleep 5] :=
  (put_with_separator_is_rejected demoConfig (demoState "put ../../etc/passwd 4 0644\nroot" 100 0)
    (demoLink "put ../../etc/passwd 4 0644\nroot" 100) demoWorld
    "../../etc/passwd".toList "4".toList "0644".toList "root".toList
    (by unfold IsName; decide) (by decide) (by unfold IsNumeral; decide)
    (by unfold IsNumeral; decide) (by decide) (by decide)).2.2.2

theorem put_stores_payload_witness :
    (serve demoConfig (demoState "put x 5 0600\nhello" 100 0)
        (demoLink "put x 5 0600\nhello" 100) demoWorld).events
      = [Event.tune, Event.write "ready h 2 1 2 3 4\n".toList true,
          Event.readline (some "put x 5 0600".toList), Event.openCreate "x".toList 384 true,
          Event.streamToFd "x".toList 5 5, Event.closeFd]
      ∧ (serve demoConfig (demoState "put x 5 0600\nhello" 100 0)
          (demoLink "put x 5 0600\nhello" 100) demoWorld).world.files "x".toList
        = some ⟨384, "hello".toList⟩ :=
  ⟨(put_stores_payload demoConfig (demoState "put x 5 0600\nhello" 100 0)
      (demoLink "put x 5 0600\nhello" 100) demoWorld
      "x".toList "5".toList "0600".toList "hello".toList
      (by unfold IsName; decide) (by decide) (by unfold IsNumeral; decide)
      (by unfold IsNumeral; decide) (by decide) (by decide) (by decide) (by decide)
      (by decide)).1,
    (put_stores_payload demoConfig (demoState "put x 5 0600\nhello" 100 0)
      (demoLink "put x 5 0600\nhello" 100) demoWorld
      "x".toList "5".toList "0600".toList "hello".toList
      (by unfold IsName; decide) (by decide) (by unfold IsNumeral; decide)
      (by unfold IsNumeral; decide) (by decide) (by decide) (by decide) (by decide)
      (by decide)).2.1⟩

/-- C2: what the code does with `get ../../etc/passwd`.  After a `put a 4 0600` the
request opens the file two directories up and its four bytes go out to the master. -/
theorem get_with_separator_opens_file :
    (loop 2 demoConfig (demoState "put a 4 0600\nabcdget ../../etc/passwd\n" 100 0)
        demoWorld).events
        = [Event.tune, Event.write "ready h 2 1 2 3 4\n".toList true,
            Event.readline (some "put a 4 0600".toList), Event.openCreate "a".toList 384 true,
            Event.streamToFd "a".toList 4 4, Event.closeFd,
            Event.tune, Event.write "ready h 2 1 2 3 4\n".toList true,
            Event.readline (some "get ../../etc/passwd".toList),
            Event.openRead "../../etc/passwd".toList true, Event.write "4\n".toList true,
            Event.streamFromFd "../../etc/passwd".toList 4 4, Event.closeFd]
      ∧ (loop 2 demoConfig (demoState "put a 4 0600\nabcdget ../../etc/passwd\n" 100 0)
          demoWorld).state.master
        = some ⟨[], 58, "ready h 2 1 2 3 4\nready h 2 1 2 3 4\n4\nroot".toList⟩ := by
  decide

/-- C3: what the code does with `get f` after `put g 3 0600`.  The file `f` holds the five
bytes `hello`; the size line says 5, the stream is asked for the 3 bytes the earlier
request left in `length`, three bytes go out, and the iteration counts as completed. -/
theorem get_streams_stale_length :
    (loop 2 demoConfig (demoState "put g 3 0600\nabcget f\n" 100 0) demoWorld).events
        = [Event.tune, Event.write "ready h 2 1 2 3 4\n".toList true,
            Event.readline (some "put g 3 0600".toList), Event.openCreate "g".toList 384 true,
            Event.streamToFd "g".toList 3 3, Event.closeFd,
            Event.tune, Event.write "ready h 2 1 2 3 4\n".toList true,
            Event.readline (some "get f".toList), Event.openRead "f".toList true,
            Event.write "5\n".toList true, Event.streamFromFd "f".toList 3 3, Event.closeFd]
      ∧ (loop 2 demoConfig (demoState "put g 3 0600\nabcget f\n" 100 0) demoWorld).state.master
        = some ⟨[], 59, "ready h 2 1 2 3 4\nready h 2 1 2 3 4\n5\nhel".toList⟩ := by
  decide

/-- C7: what the code does with an empty request line and with the line `work`.  For
both `sscanf(line,"work %d",&length)` returns `EOF`, which is not zero: the `work`
branch runs with `length` as it was, calls `fast_popen`, and answers `result -1 0`
where `error` was due. -/
theorem empty_line_runs_work_branch :
    sscanf [] "work %d" = (-1, [])
      ∧ (serve demoConfig (demoState "\n" 100 0) (demoLink "\n" 100) demoWorld).events
        = [Event.tune, Event.write "ready h 2 1 2 3 4\n".toList true,
            Event.readline (some []), Event.read 0 [], Event.popen [] false,
            Event.write "result -1 0\n".toList true, Event.write [] true]
      ∧ (serve demoConfig (demoState "work\n" 100 0) (demoLink "work\n" 100) demoWorld).events
        = [Event.tune, Event.write "ready h 2 1 2 3 4\n".toList true,
            Event.readline (some "work".toList), Event.read 0 [], Event.popen [] false,
            Event.write "result -1 0\n".toList true, Event.write [] true] := by
  decide

end Worker
